import Mathlib

/-!
Shallow embedding of the go-user-tasks ledger core (`cmd/server/main.go`
together with the schema in `migrations/0001_init.sql`).

The relational store is modelled as a functional state `DB` holding the four
tables.  Each handler's transactional body becomes a pure function from a
state to a result paired with the post-commit state; a rolled-back
transaction returns the original state unchanged.  Timestamps (`now()`)
are supplied as an explicit integer parameter.
-/

namespace GoUserTasks

/-- A row of the `users` table. -/
structure User where
  id : Int
  username : String
  points : Int
  referrerID : Option Int
  createdAt : Int
deriving DecidableEq

/-- A row of the `tasks` table. -/
structure Task where
  code : String
  title : String
  points : Int
deriving DecidableEq

/-- A row of the `user_tasks` table (the Completion Ledger); the schema
makes `(user_id, task_code)` the primary key. -/
structure UserTask where
  userID : Int
  taskCode : String
  completedAt : Int
deriving DecidableEq

/-- A row of the `referrals` table (the Referral Ledger). -/
structure Referral where
  referrerID : Int
  referredID : Int
  bonusReferrer : Int
  bonusReferred : Int
  createdAt : Int
deriving DecidableEq

/-- The durable store: the four tables the ledger core touches. -/
structure DB where
  users : List User
  tasks : List Task
  userTasks : List UserTask
  referrals : List Referral
deriving DecidableEq

/-- The app configuration relevant to the core (`App` in main.go). -/
structure App where
  refBonusToReferrer : Int
  refBonusToReferred : Int
deriving DecidableEq

/-- The configuration built in `main()`: referrer +50, referred +10. -/
def mainApp : App := { refBonusToReferrer := 50, refBonusToReferred := 10 }

/-- `SELECT ... FROM tasks WHERE code=$1`. -/
def findTask (db : DB) (code : String) : Option Task :=
  db.tasks.find? (fun t => t.code == code)

/-- `SELECT ... FROM users WHERE id=$1`. -/
def findUser (db : DB) (id : Int) : Option User :=
  db.users.find? (fun u => u.id == id)

/-- Whether a `users` row with this id exists. -/
def userExists (db : DB) (id : Int) : Bool :=
  db.users.any (fun u => u.id == id)

/-- Whether a `user_tasks` row for the pair exists. -/
def hasCompletion (db : DB) (uid : Int) (code : String) : Bool :=
  db.userTasks.any (fun ut => ut.userID == uid && ut.taskCode == code)

/-- `SELECT COUNT(*) FROM user_tasks WHERE user_id=$1 AND task_code=$2`. -/
def countCompletion (db : DB) (uid : Int) (code : String) : Nat :=
  (db.userTasks.filter (fun ut => ut.userID == uid && ut.taskCode == code)).length

/-- `UPDATE users SET points = points + $1 WHERE id=$2`. -/
def addPoints (users : List User) (uid : Int) (pts : Int) : List User :=
  users.map (fun u => if u.id == uid then { u with points := u.points + pts } else u)

/-- `UPDATE users SET referrer_id=$1 WHERE id=$2`. -/
def setReferrerField (users : List User) (uid rid : Int) : List User :=
  users.map (fun u => if u.id == uid then { u with referrerID := some rid } else u)

/-- The point balance of a user, when the user exists. -/
def userPoints (db : DB) (uid : Int) : Option Int :=
  (findUser db uid).map (fun u => u.points)

/-- The stored referrer link of a user, when the user exists. -/
def userReferrer (db : DB) (uid : Int) : Option (Option Int) :=
  (findUser db uid).map (fun u => u.referrerID)

/-- Outcome of the `CompleteTask` handler, as observed by the caller. -/
inductive CompleteTaskResult where
  | ok (awarded : Int)
  | alreadyCompleted
  | unknownTask
  | storageError
deriving DecidableEq

/-- `INSERT INTO user_tasks ... ON CONFLICT (user_id, task_code) DO NOTHING`.
On a key conflict nothing is inserted; otherwise the insert is subject to the
schema's foreign key `user_tasks.user_id REFERENCES users(id)`, whose
violation surfaces as a storage error that aborts the transaction.  (The
`task_code` foreign key cannot fire here: `completeTask` only reaches the
insert after finding the task row inside the same transaction.) -/
def insertCompletionIfAbsent (db : DB) (uid : Int) (code : String) (now : Int) :
    Except Unit DB :=
  if hasCompletion db uid code then .ok db
  else if userExists db uid then
    .ok { db with userTasks := db.userTasks ++ [⟨uid, code, now⟩] }
  else .error ()

/-- The transactional body of `CompleteTask` (main.go lines 288-345):
look up the task, insert-or-ignore the completion row, re-count the rows for
the pair, and if the count is nonzero award the task's points.  Error paths
and the `already_completed` path return before commit, so they leave the
store unchanged. -/
def completeTask (db : DB) (uid : Int) (code : String) (now : Int) :
    CompleteTaskResult × DB :=
  match findTask db code with
  | none => (.unknownTask, db)
  | some task =>
    match insertCompletionIfAbsent db uid code now with
    | .error _ => (.storageError, db)
    | .ok db1 =>
      if countCompletion db1 uid code == 0 then
        (.alreadyCompleted, db)
      else
        (.ok task.points, { db1 with users := addPoints db1.users uid task.points })

/-- Outcome of the `SetReferrer` handler, as observed by the caller. -/
inductive SetReferrerResult where
  | ok (bonusReferred bonusReferrer : Int)
  | selfReferral
  | unknownUser
  | referrerAlreadySet
  | unknownReferrer
deriving DecidableEq

/-- The core of `SetReferrer` (main.go lines 365-438), starting after body
parsing: reject self-referral, then inside one transaction check that the
user exists with no referrer yet and that the referrer exists, set the
link, pay both bonuses, and record the referral row. -/
def setReferrer (a : App) (db : DB) (uid rid : Int) (now : Int) :
    SetReferrerResult × DB :=
  if rid == uid then (.selfReferral, db)
  else
    match findUser db uid with
    | none => (.unknownUser, db)
    | some u =>
      match u.referrerID with
      | some _ => (.referrerAlreadySet, db)
      | none =>
        match findUser db rid with
        | none => (.unknownReferrer, db)
        | some _ =>
          let users1 := setReferrerField db.users uid rid
          let users2 := addPoints users1 uid a.refBonusToReferred
          let users3 := addPoints users2 rid a.refBonusToReferrer
          (.ok a.refBonusToReferred a.refBonusToReferrer,
            { db with
                users := users3,
                referrals := db.referrals ++
                  [⟨rid, uid, a.refBonusToReferrer, a.refBonusToReferred, now⟩] })

/-- The row order of `ORDER BY points DESC, id ASC`: `u` may precede `v`. -/
def lbRel (u v : User) : Prop :=
  v.points < u.points ∨ (u.points = v.points ∧ u.id ≤ v.id)

instance : DecidableRel lbRel := fun u v =>
  inferInstanceAs (Decidable (v.points < u.points ∨ (u.points = v.points ∧ u.id ≤ v.id)))

instance : IsTotal User lbRel where
  total u v := by
    simp only [lbRel]
    omega

instance : IsTrans User lbRel where
  trans u v w h1 h2 := by
    simp only [lbRel] at *
    omega

/-- A leaderboard entry as serialized by `GetLeaderboard`. -/
structure LBItem where
  id : Int
  username : String
  points : Int
  rank : Nat
deriving DecidableEq

/-- The `limit` handling of `GetLeaderboard`: start from the default 10 and
take the query value only when it parsed and lies in `1..100`.  `none`
stands for an absent, empty or unparseable query parameter. -/
def effLimit (p : Option Int) : Int :=
  match p with
  | some n => if 0 < n ∧ n ≤ 100 then n else 10
  | none => 10

/-- The rank-assignment loop of `GetLeaderboard`: `rank` starts at `r` and
each row receives the next integer. -/
def assignRanks : List User → Nat → List LBItem
  | [], _ => []
  | u :: rest, r =>
    { id := u.id, username := u.username, points := u.points, rank := r + 1 } ::
      assignRanks rest (r + 1)

/-- `GetLeaderboard` (main.go lines 231-267): `SELECT id, username, points
FROM users ORDER BY points DESC, id ASC LIMIT $1`, then number the rows
from 1.  The SQL ordering is modelled by sorting with the total order
`lbRel`. -/
def getLeaderboard (db : DB) (p : Option Int) : List LBItem :=
  assignRanks ((List.insertionSort lbRel db.users).take (effLimit p).toNat) 0

/-- The row order of `ORDER BY ut.completed_at DESC`. -/
def recentRel (a b : UserTask) : Prop :=
  b.completedAt ≤ a.completedAt

instance : DecidableRel recentRel := fun a b =>
  inferInstanceAs (Decidable (b.completedAt ≤ a.completedAt))

instance : IsTotal UserTask recentRel where
  total a b := Int.le_total b.completedAt a.completedAt

instance : IsTrans UserTask recentRel where
  trans _ _ _ h1 h2 := le_trans h2 h1

/-- A completed-task row as serialized by `GetUserStatus`. -/
structure CompletionInfo where
  code : String
  title : String
  points : Int
  completedAt : Int
deriving DecidableEq

/-- The join `user_tasks JOIN tasks ON tasks.code = user_tasks.task_code`
restricted to one user and ordered by `completed_at DESC`. -/
def completionsOf (db : DB) (uid : Int) : List CompletionInfo :=
  (List.insertionSort recentRel (db.userTasks.filter (fun ut => ut.userID == uid))).filterMap
    (fun ut => (findTask db ut.taskCode).map
      (fun t => { code := t.code, title := t.title, points := t.points,
                  completedAt := ut.completedAt }))

/-- Failure of `GetUserStatus`. -/
inductive StatusErr where
  | unknownUser
deriving DecidableEq

/-- `GetUserStatus` (main.go lines 166-229): look up the user (404 when
absent), then return the user together with the completed-task join. -/
def getUserStatus (db : DB) (uid : Int) :
    Except StatusErr (User × List CompletionInfo) :=
  match findUser db uid with
  | none => .error .unknownUser
  | some u => .ok (u, completionsOf db uid)

/-! ### Helper lemmas about row lookups -/

/-- Looking a user up by id commutes with an id-preserving row update. -/
theorem find?_map_id_preserving (f : User → User) (hf : ∀ u, (f u).id = u.id)
    (uid : Int) :
    ∀ l : List User,
      (l.map f).find? (fun u => u.id == uid) = (l.find? (fun u => u.id == uid)).map f
  | [] => rfl
  | u :: l => by
    simp only [List.map_cons, List.find?_cons, hf]
    cases h : (u.id == uid) with
    | false => simpa [h] using find?_map_id_preserving f hf uid l
    | true => simp [h]

/-- A found user matches the requested id. -/
theorem id_of_findUser {db : DB} {uid : Int} {u : User}
    (h : findUser db uid = some u) : u.id = uid := by
  unfold findUser at h
  have h2 : (u.id == uid) = true := by simpa using List.find?_some h
  exact eq_of_beq h2

/-- A found user exists. -/
theorem userExists_of_findUser {db : DB} {uid : Int} {u : User}
    (h : findUser db uid = some u) : userExists db uid = true := by
  unfold findUser at h
  unfold userExists
  rw [List.any_eq_true]
  exact ⟨u, List.mem_of_find?_eq_some h, by simpa using List.find?_some h⟩

/-- Lookup after `addPoints`. -/
theorem find?_addPoints (l : List User) (uid tgt pts : Int) :
    (addPoints l tgt pts).find? (fun u => u.id == uid) =
      ((l.find? (fun u => u.id == uid)).map
        (fun u => if u.id == tgt then { u with points := u.points + pts } else u)) :=
  find?_map_id_preserving _ (fun u => by cases h : (u.id == tgt) <;> simp [h]) uid l

/-- Lookup after `setReferrerField`. -/
theorem find?_setReferrerField (l : List User) (uid tgt rid : Int) :
    (setReferrerField l tgt rid).find? (fun u => u.id == uid) =
      ((l.find? (fun u => u.id == uid)).map
        (fun u => if u.id == tgt then { u with referrerID := some rid } else u)) :=
  find?_map_id_preserving _ (fun u => by cases h : (u.id == tgt) <;> simp [h]) uid l

/-! ### Concrete stores used as witnesses -/

/-- A store with users alice (id 1) and bob (id 2) at 0 points and the
seeded task `daily_checkin` worth 5 points, as in the spec's scenario. -/
def dbEx : DB :=
  ⟨[⟨1, "alice", 0, none, 0⟩, ⟨2, "bob", 0, none, 0⟩],
   [⟨"daily_checkin", "Daily check-in", 5⟩], [], []⟩

/-- A store where user 1 already has referrer 2, and users 2 and 3 have no
referrer. -/
def dbRef : DB :=
  ⟨[⟨1, "alice", 10, some 2, 0⟩, ⟨2, "bob", 50, none, 0⟩, ⟨3, "carol", 0, none, 0⟩],
   [], [], []⟩

/-! ### Claims -/

/-- C1: the spec demands idempotence — after a first successful
`CompleteTask(1, "daily_checkin")`, every further call must return
`alreadyCompleted = true` with `awarded = 0` and leave the balance at 5.
The code instead re-checks `SELECT COUNT(*)` after its
`INSERT ... ON CONFLICT DO NOTHING`; that count is never zero once the row
exists, so the `already_completed` branch is unreachable and the second
call awards the 5 points again, leaving user 1 at 10 points. -/
theorem c1_second_call_awards_again :
    (completeTask dbEx 1 "daily_checkin" 100).1 = .ok 5 ∧
    userPoints (completeTask dbEx 1 "daily_checkin" 100).2 1 = some 5 ∧
    (completeTask (completeTask dbEx 1 "daily_checkin" 100).2 1 "daily_checkin" 200).1
      = .ok 5 ∧
    (completeTask (completeTask dbEx 1 "daily_checkin" 100).2 1 "daily_checkin" 200).1
      ≠ .alreadyCompleted ∧
    userPoints
      (completeTask (completeTask dbEx 1 "daily_checkin" 100).2 1 "daily_checkin" 200).2 1
      = some 10 := by
  decide

/-- C3 counterexample: the claim says every subsequent `SetReferrer` call
for a user whose referrer is already set fails with `ReferrerAlreadySet`,
with any referrer argument; but when the argument is the user itself the
self-referral check fires first, so the call fails with `SelfReferral`
instead. -/
theorem c3_counterexample :
    userReferrer dbRef 1 = some (some 2) ∧
    setReferrer mainApp dbRef 1 1 5 = (.selfReferral, dbRef) ∧
    (setReferrer mainApp dbRef 1 1 5).1 ≠ .referrerAlreadySet := by
  decide

/-- C3 (amended): once a user's referrerID is set, every subsequent
`SetReferrer` call for that user with a referrer other than the user
itself fails with `ReferrerAlreadySet` and leaves the store unchanged (so
the referrerID never changes, no bonus is paid and no balance moves); a
call naming the user itself fails with `SelfReferral`, likewise changing
nothing. -/
theorem c3_referrer_immutable (a : App) (db : DB) (uid : Int) (u : User) (r0 : Int)
    (hu : findUser db uid = some u) (hr : u.referrerID = some r0) :
    (∀ rid now, rid ≠ uid → setReferrer a db uid rid now = (.referrerAlreadySet, db)) ∧
    (∀ now, setReferrer a db uid uid now = (.selfReferral, db)) := by
  constructor
  · intro rid now hne
    have hbe : (rid == uid) = false := beq_eq_false_iff_ne.mpr hne
    simp [setReferrer, hbe, hu, hr]
  · intro now
    simp [setReferrer]

/-- C3 witness: in `dbRef` user 1 has referrer 2; a later call with
referrer 3 fails `ReferrerAlreadySet` and a later self-call fails
`SelfReferral`, both leaving the store unchanged. -/
theorem c3_witness :
    findUser dbRef 1 = some ⟨1, "alice", 10, some 2, 0⟩ ∧
    setReferrer mainApp dbRef 1 3 9 = (.referrerAlreadySet, dbRef) ∧
    setReferrer mainApp dbRef 1 1 9 = (.selfReferral, dbRef) := by
  have h := c3_referrer_immutable mainApp dbRef 1 ⟨1, "alice", 10, some 2, 0⟩ 2
    (by decide) rfl
  exact ⟨by decide, h.1 3 9 (by decide), h.2 9⟩

/-- C5: `SetReferrer(u, u)` always fails with `SelfReferral` — for every
store (whether or not `u` exists), every configuration and every
timestamp — and leaves the store, hence every balance, unchanged. -/
theorem c5_self_referral_rejected (a : App) (db : DB) (u : Int) (now : Int) :
    setReferrer a db u u now = (.selfReferral, db) := by
  simp [setReferrer]

/-- C6: when the task code is not in the catalog, `CompleteTask` fails
with `UnknownTask` and leaves the store unchanged: no completion row is
created and no balance moves. -/
theorem c6_unknown_task (db : DB) (uid : Int) (code : String) (now : Int)
    (h : findTask db code = none) :
    completeTask db uid code now = (.unknownTask, db) := by
  simp [completeTask, h]

/-- C6 witness: task `"nope"` is not in `dbEx`'s catalog, so completing it
fails with `UnknownTask` and leaves the store unchanged. -/
theorem c6_witness :
    findTask dbEx "nope" = none ∧
    completeTask dbEx 7 "nope" 3 = (.unknownTask, dbEx) :=
  ⟨by decide, c6_unknown_task dbEx 7 "nope" 3 (by decide)⟩

/-- C10: for a user id absent from the store (hence, by the schema's
foreign key from `user_tasks` to `users`, with no completion row either)
and a task present in the catalog, `CompleteTask` aborts with a storage
error — the insert violates referential integrity — and leaves the store
unchanged. -/
theorem c10_missing_user_storage_error (db : DB) (uid : Int) (code : String)
    (now : Int) (t : Task) (ht : findTask db code = some t)
    (hus : userExists db uid = false) (hnc : hasCompletion db uid code = false) :
    completeTask db uid code now = (.storageError, db) := by
  simp [completeTask, insertCompletionIfAbsent, ht, hus, hnc]

/-- C10 witness: user 99 does not exist in `dbEx`, so completing the
catalogued task `daily_checkin` for it fails with a storage error and
changes nothing. -/
theorem c10_witness :
    userExists dbEx 99 = false ∧
    completeTask dbEx 99 "daily_checkin" 4 = (.storageError, dbEx) :=
  ⟨by decide,
    c10_missing_user_storage_error dbEx 99 "daily_checkin" 4
      ⟨"daily_checkin", "Daily check-in", 5⟩ (by decide) (by decide) (by decide)⟩

/-- C2: for an existing user, a catalogued task and no prior completion
row, `CompleteTask` returns a first-time award of the task's points,
appends exactly one completion row for the pair, adds the task's points to
that user's balance, and touches nothing else — all as the effect of one
transaction. -/
theorem c2_first_completion_awards (db : DB) (uid : Int) (code : String) (now : Int)
    (u : User) (t : Task) (hu : findUser db uid = some u)
    (ht : findTask db code = some t) (hnc : hasCompletion db uid code = false) :
    completeTask db uid code now =
      (.ok t.points,
        ⟨addPoints db.users uid t.points, db.tasks,
         db.userTasks ++ [⟨uid, code, now⟩], db.referrals⟩) ∧
    userPoints (completeTask db uid code now).2 uid = some (u.points + t.points) := by
  have hex : userExists db uid = true := userExists_of_findUser hu
  have hid : (u.id == uid) = true := beq_iff_eq.mpr (id_of_findUser hu)
  have hcnt :
      (countCompletion ⟨db.users, db.tasks, db.userTasks ++ [⟨uid, code, now⟩],
        db.referrals⟩ uid code == 0) = false := by
    simp [countCompletion, List.filter_append]
  have hmain : completeTask db uid code now =
      (.ok t.points,
        ⟨addPoints db.users uid t.points, db.tasks,
         db.userTasks ++ [⟨uid, code, now⟩], db.referrals⟩) := by
    unfold completeTask insertCompletionIfAbsent
    rw [ht, hnc, hex]
    simp only [Bool.false_eq_true, if_false, if_true]
    rw [hcnt]
    simp only [Bool.false_eq_true, if_false]
  refine ⟨hmain, ?_⟩
  rw [hmain]
  unfold userPoints findUser
  dsimp only
  rw [find?_addPoints]
  unfold findUser at hu
  rw [hu]
  simp [id_of_findUser hu]

/-- C2 witness: in `dbEx`, user 1 at 0 points completing `daily_checkin`
(worth 5) for the first time gets awarded 5, one completion row appears
and the balance becomes 5. -/
theorem c2_witness :
    completeTask dbEx 1 "daily_checkin" 100 =
      (.ok 5,
        ⟨addPoints dbEx.users 1 5, dbEx.tasks,
         dbEx.userTasks ++ [⟨1, "daily_checkin", 100⟩], dbEx.referrals⟩) ∧
    userPoints (completeTask dbEx 1 "daily_checkin" 100).2 1 = some (0 + 5) :=
  c2_first_completion_awards dbEx 1 "daily_checkin" 100
    ⟨1, "alice", 0, none, 0⟩ ⟨"daily_checkin", "Daily check-in", 5⟩ rfl rfl rfl

/-- C4: for an existing user with no referrer and a distinct existing
referrer, `SetReferrer` with the `main()` bonus configuration succeeds,
returning bonuses 10 (to the referred user) and 50 (to the referrer); its
single transaction sets the user's referrerID to the referrer, adds 10 to
the user's balance, adds 50 to the referrer's balance, and appends one
referral row recording both amounts, leaving tasks and completions
untouched. -/
theorem c4_set_referrer_success (db : DB) (uid rid : Int) (now : Int) (u v : User)
    (hu : findUser db uid = some u) (hnr : u.referrerID = none)
    (hne : rid ≠ uid) (hv : findUser db rid = some v) :
    setReferrer mainApp db uid rid now =
      (.ok 10 50,
        ⟨addPoints (addPoints (setReferrerField db.users uid rid) uid 10) rid 50,
         db.tasks, db.userTasks,
         db.referrals ++ [⟨rid, uid, 50, 10, now⟩]⟩) ∧
    userReferrer (setReferrer mainApp db uid rid now).2 uid = some (some rid) ∧
    userPoints (setReferrer mainApp db uid rid now).2 uid = some (u.points + 10) ∧
    userPoints (setReferrer mainApp db uid rid now).2 rid = some (v.points + 50) := by
  have hbe : (rid == uid) = false := beq_eq_false_iff_ne.mpr hne
  have hidu : (u.id == uid) = true := beq_iff_eq.mpr (id_of_findUser hu)
  have hidv : (v.id == rid) = true := beq_iff_eq.mpr (id_of_findUser hv)
  have hvne : (v.id == uid) = false := by
    rw [beq_eq_false_iff_ne, id_of_findUser hv]
    exact hne
  have hune : (u.id == rid) = false := by
    rw [beq_eq_false_iff_ne, id_of_findUser hu]
    exact fun h => hne h.symm
  have hmain : setReferrer mainApp db uid rid now =
      (.ok 10 50,
        ⟨addPoints (addPoints (setReferrerField db.users uid rid) uid 10) rid 50,
         db.tasks, db.userTasks,
         db.referrals ++ [⟨rid, uid, 50, 10, now⟩]⟩) := by
    simp [setReferrer, hbe, hu, hnr, hv, mainApp]
  unfold findUser at hu hv
  refine ⟨hmain, ?_, ?_, ?_⟩
  · rw [hmain]
    unfold userReferrer findUser
    dsimp only
    rw [find?_addPoints, find?_addPoints, find?_setReferrerField, hu]
    simp [id_of_findUser hu, Ne.symm hne]
  · rw [hmain]
    unfold userPoints findUser
    dsimp only
    rw [find?_addPoints, find?_addPoints, find?_setReferrerField, hu]
    simp [id_of_findUser hu, Ne.symm hne]
  · rw [hmain]
    unfold userPoints findUser
    dsimp only
    rw [find?_addPoints, find?_addPoints, find?_setReferrerField, hv]
    simp [id_of_findUser hv, hne]

/-- C4 witness: in `dbRef`, user 2 (no referrer, 50 points) names user 3
(0 points): the call returns bonuses 10/50, user 2 ends referred-by-3 at
60 points, user 3 at 50 points, and the referral row `(3, 2, 50, 10)` is
appended. -/
theorem c4_witness :
    setReferrer mainApp dbRef 2 3 11 =
      (.ok 10 50,
        ⟨addPoints (addPoints (setReferrerField dbRef.users 2 3) 2 10) 3 50,
         dbRef.tasks, dbRef.userTasks,
         dbRef.referrals ++ [⟨3, 2, 50, 10, 11⟩]⟩) ∧
    userReferrer (setReferrer mainApp dbRef 2 3 11).2 2 = some (some 3) ∧
    userPoints (setReferrer mainApp dbRef 2 3 11).2 2 = some (50 + 10) ∧
    userPoints (setReferrer mainApp dbRef 2 3 11).2 3 = some (0 + 50) :=
  c4_set_referrer_success dbRef 2 3 11 ⟨2, "bob", 50, none, 0⟩ ⟨3, "carol", 0, none, 0⟩
    rfl rfl (by decide) rfl

/-! ### Helper lemmas about the ranking loop -/

/-- The ranking loop keeps the row count. -/
theorem assignRanks_length (l : List User) (r : Nat) :
    (assignRanks l r).length = l.length := by
  induction l generalizing r with
  | nil => rfl
  | cons u l ih => simp [assignRanks, ih]

/-- Row `k` of the ranking loop started at `r` is row `k` of the input
with rank `r + k + 1`. -/
theorem assignRanks_get (l : List User) (r k : Nat) (hk : k < (assignRanks l r).length)
    (hk' : k < l.length) :
    (assignRanks l r).get ⟨k, hk⟩ =
      { id := (l.get ⟨k, hk'⟩).id, username := (l.get ⟨k, hk'⟩).username,
        points := (l.get ⟨k, hk'⟩).points, rank := r + k + 1 } := by
  induction l generalizing r k with
  | nil => exact absurd hk' (Nat.not_lt_zero k)
  | cons u l ih =>
    cases k with
    | zero => rfl
    | succ k =>
      have hk2 : k < (assignRanks l (r + 1)).length := by
        rw [assignRanks_length]
        exact Nat.lt_of_succ_lt_succ hk'
      have := ih (r + 1) k hk2 (Nat.lt_of_succ_lt_succ hk')
      simpa [assignRanks, Nat.add_assoc, Nat.add_comm 1 k] using this

/-- C7: for any store with pairwise-distinct user ids and any limit, the
leaderboard is strictly ordered — points descending, ties broken by id
ascending — and its ranks are the dense 1-based positions: row `k` has
rank `k + 1`. -/
theorem c7_leaderboard_order_and_ranks (db : DB) (p : Option Int)
    (hnd : (db.users.map (fun u => u.id)).Nodup) :
    (∀ i j (hi : i < (getLeaderboard db p).length)
       (hj : j < (getLeaderboard db p).length), i < j →
       ((getLeaderboard db p).get ⟨j, hj⟩).points
           < ((getLeaderboard db p).get ⟨i, hi⟩).points ∨
         (((getLeaderboard db p).get ⟨i, hi⟩).points
             = ((getLeaderboard db p).get ⟨j, hj⟩).points ∧
          ((getLeaderboard db p).get ⟨i, hi⟩).id
             < ((getLeaderboard db p).get ⟨j, hj⟩).id)) ∧
    (∀ k (hk : k < (getLeaderboard db p).length),
       ((getLeaderboard db p).get ⟨k, hk⟩).rank = k + 1) := by
  have hsort : List.Pairwise lbRel (List.insertionSort lbRel db.users) :=
    List.sorted_insertionSort lbRel db.users
  have hperm : List.Perm (List.insertionSort lbRel db.users) db.users :=
    List.perm_insertionSort lbRel db.users
  have hnd2 : ((List.insertionSort lbRel db.users).map (fun u => u.id)).Nodup :=
    ((hperm.map (fun u => u.id)).symm).nodup hnd
  have hne : List.Pairwise (fun u v : User => u.id ≠ v.id)
      (List.insertionSort lbRel db.users) := List.pairwise_map.mp hnd2
  have hstrict : List.Pairwise
      (fun u v : User => v.points < u.points ∨ (u.points = v.points ∧ u.id < v.id))
      (List.insertionSort lbRel db.users) := by
    refine (hsort.and hne).imp ?_
    intro u v hv
    rcases hv with ⟨h1, h2⟩
    rw [lbRel] at h1
    rcases h1 with h | ⟨he, hle⟩
    · exact Or.inl h
    · exact Or.inr ⟨he, lt_of_le_of_ne hle h2⟩
  have htake : List.Pairwise
      (fun u v : User => v.points < u.points ∨ (u.points = v.points ∧ u.id < v.id))
      ((List.insertionSort lbRel db.users).take (effLimit p).toNat) :=
    List.Pairwise.sublist (List.take_sublist _ _) hstrict
  have hlen : (getLeaderboard db p).length =
      ((List.insertionSort lbRel db.users).take (effLimit p).toNat).length := by
    unfold getLeaderboard
    exact assignRanks_length _ _
  constructor
  · intro i j hi hj hij
    have hi' : i < ((List.insertionSort lbRel db.users).take (effLimit p).toNat).length :=
      hlen ▸ hi
    have hj' : j < ((List.insertionSort lbRel db.users).take (effLimit p).toNat).length :=
      hlen ▸ hj
    have hget : ∀ k (hk : k < (getLeaderboard db p).length)
        (hk' : k < ((List.insertionSort lbRel db.users).take (effLimit p).toNat).length),
        (getLeaderboard db p).get ⟨k, hk⟩ =
          { id := (((List.insertionSort lbRel db.users).take
                (effLimit p).toNat).get ⟨k, hk'⟩).id,
            username := (((List.insertionSort lbRel db.users).take
                (effLimit p).toNat).get ⟨k, hk'⟩).username,
            points := (((List.insertionSort lbRel db.users).take
                (effLimit p).toNat).get ⟨k, hk'⟩).points,
            rank := k + 1 } := by
      intro k hk hk'
      have := assignRanks_get ((List.insertionSort lbRel db.users).take
        (effLimit p).toNat) 0 k hk hk'
      simpa [getLeaderboard] using this
    rw [hget i hi hi', hget j hj hj']
    have hpg := List.pairwise_iff_getElem.mp htake i j hi' hj' hij
    simpa [List.get_eq_getElem] using hpg
  · intro k hk
    have hk' : k < ((List.insertionSort lbRel db.users).take (effLimit p).toNat).length :=
      hlen ▸ hk
    have := assignRanks_get ((List.insertionSort lbRel db.users).take
      (effLimit p).toNat) 0 k hk hk'
    simp only [getLeaderboard] at hk ⊢
    rw [this]
    simp

/-- C7 witness: over users A (id 1, 100 pts), B (id 2, 100 pts) and
C (id 3, 90 pts), `Leaderboard(2)` puts A at rank 1 and B at rank 2; in
particular every row's rank is its dense 1-based position. -/
theorem c7_witness :
    ((⟨[⟨3, "C", 90, none, 0⟩, ⟨1, "A", 100, none, 0⟩, ⟨2, "B", 100, none, 0⟩],
        [], [], []⟩ : DB).users.map (fun u => u.id)).Nodup ∧
    getLeaderboard
        ⟨[⟨3, "C", 90, none, 0⟩, ⟨1, "A", 100, none, 0⟩, ⟨2, "B", 100, none, 0⟩],
         [], [], []⟩ (some 2) =
      [⟨1, "A", 100, 1⟩, ⟨2, "B", 100, 2⟩] ∧
    (∀ k (hk : k < (getLeaderboard
        ⟨[⟨3, "C", 90, none, 0⟩, ⟨1, "A", 100, none, 0⟩, ⟨2, "B", 100, none, 0⟩],
         [], [], []⟩ (some 2)).length),
       ((getLeaderboard
          ⟨[⟨3, "C", 90, none, 0⟩, ⟨1, "A", 100, none, 0⟩, ⟨2, "B", 100, none, 0⟩],
           [], [], []⟩ (some 2)).get ⟨k, hk⟩).rank = k + 1) :=
  ⟨by decide, by decide,
    (c7_leaderboard_order_and_ranks
      ⟨[⟨3, "C", 90, none, 0⟩, ⟨1, "A", 100, none, 0⟩, ⟨2, "B", 100, none, 0⟩],
       [], [], []⟩ (some 2) (by decide)).2⟩

/-- C8: the leaderboard never fails because of the limit argument: for
every store and every parsed-or-missing limit input, the effective limit
lies between 1 and 100 (out-of-range or invalid inputs fall back to the
default 10) and the returned sequence is no longer than that limit. -/
theorem c8_limit_clamped (db : DB) (p : Option Int) :
    1 ≤ effLimit p ∧ effLimit p ≤ 100 ∧
    (getLeaderboard db p).length ≤ (effLimit p).toNat := by
  refine ⟨?_, ?_, ?_⟩
  · unfold effLimit
    rcases p with _ | n
    · norm_num
    · split <;> omega
  · unfold effLimit
    rcases p with _ | n
    · norm_num
    · split <;> omega
  · unfold getLeaderboard
    rw [assignRanks_length, List.length_take]
    exact Nat.min_le_left _ _

/-! ### Helper lemma for the status query ordering -/

/-- The completions list built by `GetUserStatus` is ordered by
`completedAt` descending. -/
theorem completionsOf_sorted (db : DB) (uid : Int) :
    List.Pairwise (fun a b : CompletionInfo => b.completedAt ≤ a.completedAt)
      (completionsOf db uid) := by
  unfold completionsOf
  refine List.Pairwise.filterMap _ ?_
    (List.sorted_insertionSort recentRel
      (db.userTasks.filter (fun ut => ut.userID == uid)))
  intro a a' h b hb b' hb'
  simp only [Option.mem_def, Option.map_eq_some'] at hb hb'
  rcases hb with ⟨t1, _, hb⟩
  rcases hb' with ⟨t2, _, hb'⟩
  rw [recentRel] at h
  rw [← hb, ← hb']
  exact h

/-- C9: `GetStatus` fails with `UnknownUser` exactly when the user id is
absent; for an existing user it returns that user's row together with a
completions list ordered by `completedAt` descending.  The operation is a
pure query: it produces no new store state. -/
theorem c9_status_query (db : DB) (uid : Int) :
    (findUser db uid = none → getUserStatus db uid = .error .unknownUser) ∧
    (∀ u, findUser db uid = some u →
      ∃ comps, getUserStatus db uid = .ok (u, comps) ∧
        List.Pairwise (fun a b : CompletionInfo => b.completedAt ≤ a.completedAt)
          comps) := by
  constructor
  · intro h
    simp [getUserStatus, h]
  · intro u h
    exact ⟨completionsOf db uid, by simp [getUserStatus, h], completionsOf_sorted db uid⟩

/-- C9 witness: in a store where user 1 exists with two completions and
user 99 does not, `GetStatus(99)` fails with `UnknownUser` while
`GetStatus(1)` returns user 1 with a list ordered by `completedAt`
descending. -/
theorem c9_witness :
    getUserStatus
        ⟨[⟨1, "alice", 5, none, 0⟩], [⟨"a", "A", 2⟩, ⟨"b", "B", 3⟩],
         [⟨1, "a", 10⟩, ⟨1, "b", 20⟩], []⟩ 99 = .error .unknownUser ∧
    (∃ comps, getUserStatus
        ⟨[⟨1, "alice", 5, none, 0⟩], [⟨"a", "A", 2⟩, ⟨"b", "B", 3⟩],
         [⟨1, "a", 10⟩, ⟨1, "b", 20⟩], []⟩ 1 = .ok (⟨1, "alice", 5, none, 0⟩, comps) ∧
      List.Pairwise (fun a b : CompletionInfo => b.completedAt ≤ a.completedAt) comps) :=
  ⟨(c9_status_query
      ⟨[⟨1, "alice", 5, none, 0⟩], [⟨"a", "A", 2⟩, ⟨"b", "B", 3⟩],
       [⟨1, "a", 10⟩, ⟨1, "b", 20⟩], []⟩ 99).1 rfl,
   (c9_status_query
      ⟨[⟨1, "alice", 5, none, 0⟩], [⟨"a", "A", 2⟩, ⟨"b", "B", 3⟩],
       [⟨1, "a", 10⟩, ⟨1, "b", 20⟩], []⟩ 1).2 ⟨1, "alice", 5, none, 0⟩ rfl⟩

end GoUserTasks
